import Mathlib

/-!
# Shallow embedding of the HOS exam Attempt Engine (src/backend/server.py)

The backend stores questions, exams, exam attempts and users in a document
store keyed by unique ids.  Here the store is modelled as lists of records
with `Nat` ids handed out by a counter (`nextId`); `find_one` by id becomes
`List.find?`, `insert_one` appends, and `update_one` by the unique `_id`
maps over the (unique) matching record.  Times are whole seconds since an
epoch; numeric answer arithmetic (`marks : int`, `negative_marks : float`)
is carried out in `ℚ`.  The authentication / tenant / audit layers are
outside the model (the spec treats them as external collaborators).
-/

namespace HOS

/-- `QuestionType` enum of server.py. -/
inductive QuestionType where
  | mcqSingle
  | mcqMulti
  | trueFalse
  | fillBlank
  | caseBased
deriving DecidableEq

/-- `ExamStatus` enum of server.py. -/
inductive ExamStatus where
  | draft
  | published
  | active
  | completed
  | archived
deriving DecidableEq

/-- `AttemptStatus` enum of server.py. -/
inductive AttemptStatus where
  | inProgress
  | submitted
  | evaluated
  | expired
deriving DecidableEq

/-- A dynamically typed answer payload (`answer: Any` in `AnswerSubmit`,
and the stored `correct_answer`): either a scalar string or a list of
choice-id strings. -/
inductive AnsVal where
  | s (v : String)
  | l (vs : List String)
deriving DecidableEq

/-- Python `str.lower()` (ASCII idealization, as used on choice ids and
free-text answers). -/
def pyLower (s : String) : String := ⟨s.data.map Char.toLower⟩

/-- Python `str.strip()`: drop surrounding whitespace at both ends. -/
def pyStrip (s : String) : String :=
  ⟨((s.data.dropWhile Char.isWhitespace).reverse.dropWhile Char.isWhitespace).reverse⟩

/-- `", ".join`, as in the repr of a Python list. -/
def joinSep : List String → String
  | [] => ""
  | [v] => v
  | v :: rest => v ++ ", " ++ joinSep rest

/-- Python `str(x)` on an answer payload: a string renders as itself, a
list renders as its repr `[\x7bquoted items\x7d]`. -/
def pyStr : AnsVal → String
  | .s v => v
  | .l vs => "[" ++ joinSep (vs.map fun v => "\x27" ++ v ++ "\x27") ++ "]"

/-- Python `set(x) if isinstance(x, list) else \x7bx\x7d`: the set of
elements of a list payload, a singleton for a scalar payload. -/
def asSet : AnsVal → Finset String
  | .s v => {v}
  | .l vs => vs.toFinset

/-- The underlying element list of a payload (scalar = one element). -/
def ansElems : AnsVal → List String
  | .s v => [v]
  | .l vs => vs

/-- A question record (fields of the store used by the Attempt Engine). -/
structure Question where
  id : ℕ
  qtype : QuestionType
  text : String
  correct_answer : AnsVal
  explanation : Option String := none
  marks : ℕ := 1
  negative_marks : ℚ := 0
deriving DecidableEq

/-- The per-answer correctness test of `submit_exam` (server.py 1827-1832):
multi-choice answers compare as sets, every other type compares as
`str(x).lower().strip()` equality. -/
def isCorrect (q : Question) (ans : AnsVal) : Bool :=
  if q.qtype = QuestionType.mcqMulti then
    decide (asSet q.correct_answer = asSet ans)
  else
    pyStrip (pyLower (pyStr ans)) == pyStrip (pyLower (pyStr q.correct_answer))

/-- An exam record: the `ExamCreate` payload fields plus the server-set
`status`, `version` and timestamps (server.py 1580-1588). -/
structure Exam where
  id : ℕ
  title : String
  description : Option String := none
  category_id : ℕ
  duration_minutes : ℕ := 60
  total_marks : ℤ := 100
  passing_marks : ℤ := 40
  instructions : Option String := none
  shuffle_questions : Bool := true
  shuffle_options : Bool := true
  show_result_immediately : Bool := true
  allow_review : Bool := true
  negative_marking : Bool := false
  question_ids : List ℕ := []
  status : ExamStatus := ExamStatus.draft
  version : ℕ := 1
  created_at : ℕ := 0
  updated_at : Option ℕ := none
  published_at : Option ℕ := none
deriving DecidableEq

/-- The `ExamCreate` request model (client-supplied fields). -/
structure ExamCreate where
  title : String
  description : Option String := none
  category_id : ℕ
  duration_minutes : ℕ := 60
  total_marks : ℤ := 100
  passing_marks : ℤ := 40
  instructions : Option String := none
  shuffle_questions : Bool := true
  shuffle_options : Bool := true
  show_result_immediately : Bool := true
  allow_review : Bool := true
  negative_marking : Bool := false
  question_ids : List ℕ := []
deriving DecidableEq

/-- The `ExamUpdate` request model; `none` fields are dropped from
`update_data` (server.py 1607). -/
structure ExamUpdate where
  title : Option String := none
  description : Option String := none
  category_id : Option ℕ := none
  duration_minutes : Option ℕ := none
  total_marks : Option ℤ := none
  passing_marks : Option ℤ := none
  instructions : Option String := none
  shuffle_questions : Option Bool := none
  shuffle_options : Option Bool := none
  show_result_immediately : Option Bool := none
  allow_review : Option Bool := none
  negative_marking : Option Bool := none
  question_ids : Option (List ℕ) := none
  status : Option ExamStatus := none
deriving DecidableEq

/-- `new_exam.update(update_data)` / `$set: update_data`: overwrite each
field present (not-`None`) in the patch. -/
def applyPatch (e : Exam) (u : ExamUpdate) : Exam :=
  { e with
    title := u.title.getD e.title
    description := u.description.or e.description
    category_id := u.category_id.getD e.category_id
    duration_minutes := u.duration_minutes.getD e.duration_minutes
    total_marks := u.total_marks.getD e.total_marks
    passing_marks := u.passing_marks.getD e.passing_marks
    instructions := u.instructions.or e.instructions
    shuffle_questions := u.shuffle_questions.getD e.shuffle_questions
    shuffle_options := u.shuffle_options.getD e.shuffle_options
    show_result_immediately := u.show_result_immediately.getD e.show_result_immediately
    allow_review := u.allow_review.getD e.allow_review
    negative_marking := u.negative_marking.getD e.negative_marking
    question_ids := u.question_ids.getD e.question_ids
    status := u.status.getD e.status }

/-- One entry of `AnswerSubmit` (sync / submit payload). -/
structure AnswerSubmit where
  question_id : ℕ
  answer : AnsVal
  time_spent_seconds : ℤ := 0
  flagged : Bool := false
deriving DecidableEq

/-- One entry of the persisted `detailed_results` (server.py 1842-1852). -/
structure DetailEntry where
  question_id : ℕ
  question_text : String
  your_answer : AnsVal
  correct_answer : AnsVal
  is_correct : Bool
  marks_obtained : ℚ
  explanation : Option String
  time_spent_seconds : ℤ
  flagged : Bool
deriving DecidableEq

/-- An exam-attempt record.  Evaluation fields are absent (`none`) until
`submit_exam` sets them. -/
structure Attempt where
  id : ℕ
  exam_id : ℕ
  exam_version : ℕ
  user_id : ℕ
  status : AttemptStatus
  answers : List AnswerSubmit := []
  started_at : ℕ
  last_sync : Option ℕ := none
  score : Option ℚ := none
  correct_count : Option ℕ := none
  incorrect_count : Option ℕ := none
  unanswered_count : Option ℤ := none
  percentage : Option ℚ := none
  passed : Option Bool := none
  time_taken_seconds : Option ℤ := none
  submitted_at : Option ℕ := none
  detailed_results : Option (List DetailEntry) := none
deriving DecidableEq

/-- A user record, reduced to the XP balance the reward hook mutates. -/
structure User where
  id : ℕ
  xp_points : ℤ := 0
deriving DecidableEq

/-- The document store. -/
structure DB where
  questions : List Question := []
  exams : List Exam := []
  attempts : List Attempt := []
  users : List User := []
  nextId : ℕ := 1
deriving DecidableEq

/-- Error taxonomy of the HTTP layer (404 / 403 / 400 variants);
`internalError` stands for the unhandled exception raised when
`submit_exam` dereferences a missing exam. -/
inductive Err where
  | notFound
  | forbidden
  | alreadySubmitted
  | notAvailable
  | internalError
deriving DecidableEq

/-- `db.questions.find(\x7b_id: \x7b$in: ids\x7d\x7d)`: the stored
questions whose id is referenced, each once, in store order. -/
def questionsIn (db : DB) (ids : List ℕ) : List Question :=
  db.questions.filter fun q => q.id ∈ ids

/-- `sum(q.get("marks", 1) for q in questions)` over the referenced
questions. -/
def marksSum (db : DB) (ids : List ℕ) : ℤ :=
  ((questionsIn db ids).map fun q => (q.marks : ℤ)).sum

/-- `POST /api/exams` (server.py 1568-1594).  `total_marks` is the
computed sum when the sum is truthy, else the client-supplied value
(Python `total_marks or exam_data.total_marks`). -/
def createExam (db : DB) (data : ExamCreate) (now : ℕ) : Exam × DB :=
  let computed : ℤ := if data.question_ids.isEmpty then 0 else marksSum db data.question_ids
  let exam : Exam :=
    { id := db.nextId
      title := data.title
      description := data.description
      category_id := data.category_id
      duration_minutes := data.duration_minutes
      total_marks := if computed = 0 then data.total_marks else computed
      passing_marks := data.passing_marks
      instructions := data.instructions
      shuffle_questions := data.shuffle_questions
      shuffle_options := data.shuffle_options
      show_result_immediately := data.show_result_immediately
      allow_review := data.allow_review
      negative_marking := data.negative_marking
      question_ids := data.question_ids
      status := ExamStatus.draft
      version := 1
      created_at := now }
  (exam, { db with exams := db.exams ++ [exam], nextId := db.nextId + 1 })

/-- The clone built by the versioning branch of `update_exam`
(server.py 1611-1620): copy, apply the patch, then force
`version = old + 1`, `status = DRAFT` and a fresh identity. -/
def forkExam (db : DB) (exam : Exam) (u : ExamUpdate) (now : ℕ) : Exam :=
  { applyPatch exam u with
    version := exam.version + 1
    status := ExamStatus.draft
    created_at := now
    id := db.nextId }

/-- The store after the versioning branch of `update_exam` persists the
clone as a new record (original untouched). -/
def forkDB (db : DB) (exam : Exam) (u : ExamUpdate) (now : ℕ) : DB :=
  { db with exams := db.exams ++ [forkExam db exam u now], nextId := db.nextId + 1 }

/-- The record produced by the in-place branch of `update_exam`
(server.py 1626-1634): apply the patch, recompute `total_marks` when the
patch includes `question_ids`, stamp `updated_at`. -/
def inPlaceExam (db : DB) (exam : Exam) (u : ExamUpdate) (now : ℕ) : Exam :=
  let e1 := applyPatch exam u
  let e2 := if u.question_ids ≠ none then
      { e1 with total_marks := marksSum db (u.question_ids.getD []) }
    else e1
  { e2 with updated_at := some now }

/-- The store after the in-place branch of `update_exam` persists its
`$set`. -/
def inPlaceDB (db : DB) (exam_id : ℕ) (exam : Exam) (u : ExamUpdate) (now : ℕ) : DB :=
  { db with exams := db.exams.map fun e =>
      if e.id == exam_id then inPlaceExam db exam u now else e }

/-- `PUT /api/exams/\x7bexam_id\x7d` (server.py 1596-1640). -/
def updateExam (db : DB) (exam_id : ℕ) (u : ExamUpdate) (now : ℕ) :
    Except Err (Exam × DB) :=
  match db.exams.find? fun e => e.id == exam_id with
  | none => .error .notFound
  | some exam =>
    if exam.status ≠ ExamStatus.draft ∧ u.question_ids ≠ none then
      .ok (forkExam db exam u now, forkDB db exam u now)
    else
      .ok (inPlaceExam db exam u now, inPlaceDB db exam_id exam u now)

/-- A question as returned to the exam taker: projection
`\x7b"correct_answer": 0, "explanation": 0\x7d` (server.py 1717-1720). -/
structure QuestionPublic where
  id : ℕ
  qtype : QuestionType
  text : String
  marks : ℕ
  negative_marks : ℚ
deriving DecidableEq

/-- Strip the answer key from a question. -/
def sanitize (q : Question) : QuestionPublic :=
  { id := q.id, qtype := q.qtype, text := q.text
    marks := q.marks, negative_marks := q.negative_marks }

/-- Response of `POST /api/exams/\x7bexam_id\x7d/start`. -/
structure StartResult where
  attempt_id : ℕ
  questions : List QuestionPublic
  started_at : ℕ
  time_remaining_seconds : ℤ
  saved_answers : List AnswerSubmit
deriving DecidableEq

/-- Predicate used by `start_exam` to look up an existing attempt. -/
def isActiveFor (exam_id user_id : ℕ) (a : Attempt) : Bool :=
  a.exam_id == exam_id && a.user_id == user_id &&
    decide (a.status = AttemptStatus.inProgress)

/-- The session returned when `start_exam` resumes an existing
IN_PROGRESS attempt (server.py 1715-1732).  The elapsed time is
`(now − started_at).seconds`, the Python timedelta seconds-within-day
component, i.e. the elapsed whole seconds modulo 86400. -/
def resumeResult (db : DB) (exam : Exam) (existing : Attempt) (now : ℕ) : StartResult :=
  { attempt_id := existing.id
    questions := (questionsIn db exam.question_ids).map sanitize
    started_at := existing.started_at
    time_remaining_seconds :=
      max 0 ((exam.duration_minutes : ℤ) * 60 - (((now - existing.started_at) % 86400 : ℕ) : ℤ))
    saved_answers := existing.answers }

/-- The fresh attempt row inserted by `start_exam` (server.py 1735-1744). -/
def startAttemptRec (db : DB) (exam : Exam) (exam_id user_id now : ℕ) : Attempt :=
  { id := db.nextId
    exam_id := exam_id
    exam_version := exam.version
    user_id := user_id
    status := AttemptStatus.inProgress
    answers := []
    started_at := now }

/-- The store after `start_exam` inserts a fresh attempt. -/
def startDB (db : DB) (exam : Exam) (exam_id user_id now : ℕ) : DB :=
  { db with
    attempts := db.attempts ++ [startAttemptRec db exam exam_id user_id now]
    nextId := db.nextId + 1 }

/-- The session returned for a fresh attempt (server.py 1749-1766);
`shuffle` stands for `random.shuffle`, applied when the exam enables
question shuffling. -/
def newStartResult (db : DB) (exam : Exam) (now : ℕ)
    (shuffle : List QuestionPublic → List QuestionPublic) : StartResult :=
  { attempt_id := db.nextId
    questions :=
      if exam.shuffle_questions then shuffle ((questionsIn db exam.question_ids).map sanitize)
      else (questionsIn db exam.question_ids).map sanitize
    started_at := now
    time_remaining_seconds := (exam.duration_minutes : ℤ) * 60
    saved_answers := [] }

/-- `POST /api/exams/\x7bexam_id\x7d/start` (server.py 1698-1766).
`now` is the clock in whole seconds. -/
def startExam (db : DB) (exam_id user_id : ℕ) (now : ℕ)
    (shuffle : List QuestionPublic → List QuestionPublic) :
    Except Err (StartResult × DB) :=
  match db.exams.find? fun e => e.id == exam_id with
  | none => .error .notFound
  | some exam =>
    if exam.status ≠ ExamStatus.published ∧ exam.status ≠ ExamStatus.active then
      .error .notAvailable
    else
      match db.attempts.find? (isActiveFor exam_id user_id) with
      | some existing => .ok (resumeResult db exam existing now, db)
      | none =>
        .ok (newStartResult db exam now shuffle, startDB db exam exam_id user_id now)

/-- The store after `sync_answers` overwrites the stored answer list and
stamps the sync time. -/
def syncDB (db : DB) (attempt_id : ℕ) (answers : List AnswerSubmit) (now : ℕ) : DB :=
  { db with attempts := db.attempts.map fun a =>
      if a.id == attempt_id then { a with answers := answers, last_sync := some now }
      else a }

/-- `POST /api/attempts/\x7battempt_id\x7d/sync` (server.py 1768-1787):
overwrite the stored answer list and stamp the sync time.  A missing or
foreign attempt is a 404; a non-IN_PROGRESS attempt is the 400
"Attempt already submitted".  Returns `synced_count`. -/
def syncAnswers (db : DB) (attempt_id user_id : ℕ) (answers : List AnswerSubmit)
    (now : ℕ) : Except Err (ℕ × DB) :=
  match db.attempts.find? fun a => a.id == attempt_id with
  | none => .error .notFound
  | some attempt =>
    if attempt.user_id ≠ user_id then .error .notFound
    else if attempt.status ≠ AttemptStatus.inProgress then .error .alreadySubmitted
    else
      .ok (answers.length, syncDB db attempt_id answers now)

/-- Mutable accumulator of the evaluation loop of `submit_exam`
(server.py 1811-1852): running `score`, counters, detailed results and
the set of answered question ids. -/
structure EvalAcc where
  score : ℚ := 0
  correct_count : ℕ := 0
  incorrect_count : ℕ := 0
  details : List DetailEntry := []
  answered : Finset ℕ := ∅
deriving DecidableEq

/-- One iteration of `for answer in submission.answers` (server.py
1818-1852): record the answered id, skip ids outside the exam's question
set, otherwise grade and append a detail entry. -/
def evalStep (examQs : List Question) (negMarking : Bool) (acc : EvalAcc)
    (answer : AnswerSubmit) : EvalAcc :=
  let acc := { acc with answered := insert answer.question_id acc.answered }
  match examQs.find? fun q => q.id == answer.question_id with
  | none => acc
  | some question =>
    let is_correct := isCorrect question answer.answer
    let entry : DetailEntry :=
      { question_id := answer.question_id
        question_text := question.text
        your_answer := answer.answer
        correct_answer := question.correct_answer
        is_correct := is_correct
        marks_obtained :=
          if is_correct then (question.marks : ℚ)
          else if negMarking then -question.negative_marks else 0
        explanation := question.explanation
        time_spent_seconds := answer.time_spent_seconds
        flagged := answer.flagged }
    { acc with
      score :=
        if is_correct then acc.score + question.marks
        else if negMarking then acc.score - question.negative_marks else acc.score
      correct_count := if is_correct then acc.correct_count + 1 else acc.correct_count
      incorrect_count := if is_correct then acc.incorrect_count else acc.incorrect_count + 1
      details := acc.details ++ [entry] }

/-- The whole evaluation loop. -/
def evalAnswers (examQs : List Question) (negMarking : Bool)
    (answers : List AnswerSubmit) : EvalAcc :=
  answers.foldl (evalStep examQs negMarking) {}

/-- The raw (pre-floor) score obtained by a submission against an exam,
as accumulated by the evaluation loop. -/
def rawScore (db : DB) (exam : Exam) (answers : List AnswerSubmit) : ℚ :=
  (evalAnswers (questionsIn db exam.question_ids) exam.negative_marking answers).score

/-- Python `int(q)`: truncation toward zero. -/
def pyInt (q : ℚ) : ℤ := if q < 0 then -⌊-q⌋ else ⌊q⌋

/-- Python `round(q, 2)`: round to two decimals, ties to even. -/
def pyRound2 (q : ℚ) : ℚ :=
  let x := q * 100
  let f := ⌊x⌋
  let r := x - f
  let n : ℤ := if r < 1/2 then f else if 1/2 < r then f + 1
    else if f % 2 = 0 then f else f + 1
  (n : ℚ) / 100

/-- Response body of `POST /api/attempts/\x7battempt_id\x7d/submit`
(server.py 1888-1905). -/
structure SubmitResult where
  id : ℕ
  exam_id : ℕ
  exam_title : String
  user_id : ℕ
  score : ℚ
  total_marks : ℤ
  percentage : ℚ
  passed : Bool
  correct_count : ℕ
  incorrect_count : ℕ
  unanswered_count : ℤ
  time_taken_seconds : ℤ
  xp_earned : ℤ
  started_at : ℕ
  submitted_at : ℕ
  detailed_results : Option (List DetailEntry)
deriving DecidableEq

/-- The evaluated attempt record persisted by `submit_exam`'s
`update_one` (server.py 1860-1875). -/
def evaluateAttempt (db : DB) (exam : Exam) (a : Attempt)
    (sub : List AnswerSubmit) (now : ℕ) : Attempt :=
  let acc := evalAnswers (questionsIn db exam.question_ids) exam.negative_marking sub
  { a with
    status := AttemptStatus.evaluated
    answers := sub
    score := some (max 0 acc.score)
    correct_count := some acc.correct_count
    incorrect_count := some acc.incorrect_count
    unanswered_count := some ((exam.question_ids.length : ℤ) - (acc.answered.card : ℤ))
    percentage := some (if 0 < exam.total_marks then acc.score / (exam.total_marks : ℚ) * 100 else 0)
    passed := some (decide ((exam.passing_marks : ℚ) ≤ acc.score))
    time_taken_seconds := some ((now : ℤ) - (a.started_at : ℤ))
    submitted_at := some now
    detailed_results := some acc.details }

/-- `xp_earned = int(score * 10) + (50 if passed else 0)` on the raw
running score (server.py 1878). -/
def xpEarned (db : DB) (exam : Exam) (sub : List AnswerSubmit) : ℤ :=
  pyInt (rawScore db exam sub * 10) +
    (if decide ((exam.passing_marks : ℚ) ≤ rawScore db exam sub) then 50 else 0)

/-- The response and new store produced by a validated `submit_exam`
call (server.py 1806-1905). -/
def submitOutcome (db : DB) (exam : Exam) (attempt : Attempt)
    (attempt_id user_id : ℕ) (sub : List AnswerSubmit) (now : ℕ) :
    SubmitResult × DB :=
  let acc := evalAnswers (questionsIn db exam.question_ids) exam.negative_marking sub
  let unanswered : ℤ := (exam.question_ids.length : ℤ) - (acc.answered.card : ℤ)
  let time_taken : ℤ := (now : ℤ) - (attempt.started_at : ℤ)
  let percentage : ℚ :=
    if 0 < exam.total_marks then acc.score / (exam.total_marks : ℚ) * 100 else 0
  let passed := decide ((exam.passing_marks : ℚ) ≤ acc.score)
  let xp : ℤ := pyInt (acc.score * 10) + (if passed then 50 else 0)
  let db' :=
    { db with
      attempts := db.attempts.map fun a =>
        if a.id == attempt_id then evaluateAttempt db exam attempt sub now else a
      users := db.users.map fun u =>
        if u.id == user_id then { u with xp_points := u.xp_points + xp } else u }
  ({ id := attempt_id
     exam_id := attempt.exam_id
     exam_title := exam.title
     user_id := user_id
     score := max 0 acc.score
     total_marks := exam.total_marks
     percentage := pyRound2 percentage
     passed := passed
     correct_count := acc.correct_count
     incorrect_count := acc.incorrect_count
     unanswered_count := unanswered
     time_taken_seconds := time_taken
     xp_earned := xp
     started_at := attempt.started_at
     submitted_at := now
     detailed_results := if exam.show_result_immediately then some acc.details else none },
   db')

/-- `POST /api/attempts/\x7battempt_id\x7d/submit` (server.py 1789-1905):
validate, evaluate against the exam's current question set, persist the
evaluated attempt, award XP, and shape the response. -/
def submitExam (db : DB) (attempt_id user_id : ℕ) (sub : List AnswerSubmit)
    (now : ℕ) : Except Err (SubmitResult × DB) :=
  match db.attempts.find? fun a => a.id == attempt_id with
  | none => .error .notFound
  | some attempt =>
    if attempt.user_id ≠ user_id then .error .forbidden
    else if attempt.status ≠ AttemptStatus.inProgress then .error .alreadySubmitted
    else
      match db.exams.find? fun e => e.id == attempt.exam_id with
      | none => .error .internalError
      | some exam => .ok (submitOutcome db exam attempt attempt_id user_id sub now)

/-! ## Concrete store fixtures used by witnesses and counterexamples -/

/-- Single-choice question, answer "a", 1 mark. -/
def fxQ1 : Question :=
  { id := 1, qtype := .mcqSingle, text := "cap of x", correct_answer := .s "a" }

/-- Multi-choice question, answer \x7b"a","c"\x7d, 2 marks, penalty ½. -/
def fxQ2 : Question :=
  { id := 2, qtype := .mcqMulti, text := "pick two", correct_answer := .l ["a", "c"]
    marks := 2, negative_marks := 1/2 }

/-- Published exam over `fxQ1`, `fxQ2` with negative marking. -/
def fxExam : Exam :=
  { id := 10, title := "end to end", category_id := 0, duration_minutes := 60
    total_marks := 10, passing_marks := 6, negative_marking := true
    question_ids := [1, 2], status := .published, version := 1 }

/-- An in-progress attempt of user 30 on `fxExam`. -/
def fxAttempt : Attempt :=
  { id := 20, exam_id := 10, exam_version := 1, user_id := 30
    status := .inProgress, started_at := 0 }

/-- User 30 with zero XP. -/
def fxUser : User := { id := 30 }

/-- The fixture store. -/
def fxDb : DB :=
  { questions := [fxQ1, fxQ2], exams := [fxExam], attempts := [fxAttempt]
    users := [fxUser], nextId := 40 }

/-- The end-to-end submission of spec §8: q1 correct, q2 incorrect. -/
def fxSub : List AnswerSubmit :=
  [{ question_id := 1, answer := .s "a" }, { question_id := 2, answer := .l ["a"] }]

/-- Question whose wrong answer costs 10 marks under negative marking. -/
def cxQ : Question :=
  { id := 3, qtype := .mcqSingle, text := "hard one", correct_answer := .s "a"
    marks := 5, negative_marks := 10 }

/-- Published exam over `cxQ` with `passing_marks = 0` and negative
marking enabled. -/
def cxExam : Exam :=
  { id := 11, title := "neg", category_id := 0, duration_minutes := 60
    total_marks := 10, passing_marks := 0, negative_marking := true
    question_ids := [3], status := .published, version := 1 }

/-- An in-progress attempt of user 30 on `cxExam`. -/
def cxAttempt : Attempt :=
  { id := 21, exam_id := 11, exam_version := 1, user_id := 30
    status := .inProgress, started_at := 0 }

/-- Store for the negative-raw-score runs. -/
def cxDb : DB :=
  { questions := [cxQ], exams := [cxExam], attempts := [cxAttempt]
    users := [fxUser], nextId := 40 }

/-- A submission answering `cxQ` wrongly: raw score −10. -/
def cxSub : List AnswerSubmit := [{ question_id := 3, answer := .s "b" }]

/-! ## Answer-equivalence checking (claim C7) -/

/-- The elements of the set Python builds from a payload are exactly the
payload's elements. -/
lemma mem_asSet (a : AnsVal) (x : String) : x ∈ asSet a ↔ x ∈ ansElems a := by
  cases a with
  | s v => simp [asSet, ansElems]
  | l vs => simp [asSet, ansElems]

/-- C7: a submitted answer to a multi-choice question is correct iff the
set built from it (a scalar wrapping into a singleton) has the same
elements — order- and duplicate-independently — as the set built from
the canonical answer; for every other question type it is correct iff
the two payloads agree as strings after lowercasing and trimming. -/
theorem C7_answer_equivalence (q : Question) (ans : AnsVal) :
    isCorrect q ans = true ↔
      (if q.qtype = QuestionType.mcqMulti then
        ∀ x, x ∈ ansElems q.correct_answer ↔ x ∈ ansElems ans
      else
        pyStrip (pyLower (pyStr ans)) = pyStrip (pyLower (pyStr q.correct_answer))) := by
  unfold isCorrect
  by_cases h : q.qtype = QuestionType.mcqMulti
  · simp only [h, if_true, decide_eq_true_eq]
    rw [Finset.ext_iff]
    constructor
    · intro hset x; rw [← mem_asSet, ← mem_asSet, hset]
    · intro hmem x; rw [mem_asSet, mem_asSet, hmem]
  · simp only [h, if_false, beq_iff_eq]

/-! ## Resume-time remaining (claim C5) -/

/-- C5: the code computes the resume elapsed time with the Python
timedelta `seconds` component (whole seconds modulo one day), not the
total elapsed seconds.  Resuming 86 500 s (1 day 100 s) into a 60-minute
exam therefore returns 3 500 s remaining where the claimed formula
`max(0, 3600 − 86500)` yields 0. -/
theorem C5_code_eval :
    (startExam fxDb 10 30 86500 (fun qs => qs)).toOption.map
        (fun p => (p.1.attempt_id, p.1.time_remaining_seconds)) = some (20, 3500) ∧
    max 0 ((60 : ℤ) * 60 - 86500) = 0 ∧ (3500 : ℤ) ≠ 0 := by
  refine ⟨rfl, by decide, by decide⟩

/-! ## Percentage and pass flag (claim C1) -/

/-- C1 fails on the code: with raw score −10 (negative marking),
`total_marks = 10` and `passing_marks = 0`, the floored final score is 0,
so the claim demands percentage 0 and passed = true; the code persists
and returns percentage −100 and passed = false, computed from the raw
pre-floor score. -/
theorem C1_counterexample :
    (submitExam cxDb 21 30 cxSub 100).toOption.map
        (fun p => (p.2.attempts.map Attempt.percentage, p.2.attempts.map Attempt.passed,
          p.1.percentage, p.1.passed))
      = some ([some (-100)], [some false], -100, false) ∧
    rawScore cxDb cxExam cxSub = -10 ∧
    max 0 (rawScore cxDb cxExam cxSub) / ((cxExam.total_marks : ℚ)) * 100 = 0 ∧
    ((cxExam.passing_marks : ℚ) ≤ max 0 (rawScore cxDb cxExam cxSub)) ∧
    ((-100 : ℚ) ≠ 0 ∧ false ≠ true) := by
  have hraw : rawScore cxDb cxExam cxSub = -10 := by
    simp +decide [rawScore, cxDb, cxExam, cxSub, cxQ, questionsIn, evalAnswers, evalStep,
      isCorrect, pyStr, pyLower, pyStrip]
  refine ⟨?_, hraw, by rw [hraw]; norm_num [cxExam], by rw [hraw]; norm_num [cxExam],
    by norm_num, by decide⟩
  simp +decide [submitExam, submitOutcome, cxDb, cxExam, cxSub, cxQ, cxAttempt, fxUser,
    questionsIn, evalAnswers, evalStep, isCorrect, pyStr, pyLower, pyStrip, evaluateAttempt,
    pyInt, pyRound2, xpEarned]
  refine ⟨_, _, rfl, by norm_num, by norm_num, ?_, by norm_num⟩
  have hfl : ⌊(-10000 : ℚ)⌋ = -10000 := by
    rw [show ((-10000 : ℚ)) = ((-10000 : ℤ) : ℚ) by norm_num, Int.floor_intCast]
  have hfr : Int.fract ((-10000 : ℚ)) = 0 := by
    rw [show ((-10000 : ℚ)) = ((-10000 : ℤ) : ℚ) by norm_num, Int.fract_intCast]
  norm_num [hfl, hfr]


/-- The percentage the code actually computes: from the raw pre-floor
score. -/
def livePct (db : DB) (exam : Exam) (sub : List AnswerSubmit) : ℚ :=
  if 0 < exam.total_marks then rawScore db exam sub / (exam.total_marks : ℚ) * 100 else 0

/-- The pass flag the code actually computes: from the raw pre-floor
score. -/
def livePassed (db : DB) (exam : Exam) (sub : List AnswerSubmit) : Bool :=
  decide ((exam.passing_marks : ℚ) ≤ rawScore db exam sub)

/-- C1 amended: on every successful SubmitAttempt the persisted and
returned percentage and pass flag are computed from the raw pre-floor
score — `percentage = (raw/total)*100` when `total_marks > 0` else 0
(the response rounds it to two decimals), `passed = raw ≥ passing_marks`
— and these agree with the claimed floored-score formulas exactly when
the raw score is non-negative. -/
theorem C1_amended_theorem (db : DB) (aid uid : ℕ) (sub : List AnswerSubmit) (now : ℕ)
    (a : Attempt) (exam : Exam)
    (ha : db.attempts.find? (fun x => x.id == aid) = some a)
    (hu : a.user_id = uid) (hs : a.status = AttemptStatus.inProgress)
    (he : db.exams.find? (fun e => e.id == a.exam_id) = some exam) :
    ∃ r db', submitExam db aid uid sub now = .ok (r, db') ∧
      db'.attempts = db.attempts.map
        (fun x => if x.id == aid then evaluateAttempt db exam a sub now else x) ∧
      (evaluateAttempt db exam a sub now).percentage = some (livePct db exam sub) ∧
      (evaluateAttempt db exam a sub now).passed = some (livePassed db exam sub) ∧
      r.percentage = pyRound2 (livePct db exam sub) ∧
      r.passed = livePassed db exam sub ∧
      (0 ≤ rawScore db exam sub →
        livePct db exam sub =
          (if 0 < exam.total_marks then
            max 0 (rawScore db exam sub) / (exam.total_marks : ℚ) * 100 else 0) ∧
        (livePassed db exam sub = true ↔
          (exam.passing_marks : ℚ) ≤ max 0 (rawScore db exam sub))) := by
  subst hu
  have hrun : submitExam db aid a.user_id sub now =
      .ok (submitOutcome db exam a aid a.user_id sub now) := by
    unfold submitExam
    rw [ha]
    simp only [ne_eq, not_true_eq_false, if_false, hs, he]
  refine ⟨_, _, hrun, rfl, rfl, rfl, rfl, rfl, ?_⟩
  intro h0
  rw [livePct, livePassed, max_eq_right h0]
  exact ⟨rfl, by simp⟩

/-- C1 witness: the amended theorem applied to the end-to-end fixture. -/
theorem C1_amended_witness :
    ∃ r db', submitExam fxDb 20 30 fxSub 100 = .ok (r, db') ∧
      db'.attempts = fxDb.attempts.map
        (fun x => if x.id == 20 then evaluateAttempt fxDb fxExam fxAttempt fxSub 100 else x) ∧
      (evaluateAttempt fxDb fxExam fxAttempt fxSub 100).percentage =
        some (livePct fxDb fxExam fxSub) ∧
      (evaluateAttempt fxDb fxExam fxAttempt fxSub 100).passed =
        some (livePassed fxDb fxExam fxSub) ∧
      r.percentage = pyRound2 (livePct fxDb fxExam fxSub) ∧
      r.passed = livePassed fxDb fxExam fxSub ∧
      (0 ≤ rawScore fxDb fxExam fxSub →
        livePct fxDb fxExam fxSub =
          (if 0 < fxExam.total_marks then
            max 0 (rawScore fxDb fxExam fxSub) / (fxExam.total_marks : ℚ) * 100 else 0) ∧
        (livePassed fxDb fxExam fxSub = true ↔
          (fxExam.passing_marks : ℚ) ≤ max 0 (rawScore fxDb fxExam fxSub))) :=
  C1_amended_theorem fxDb 20 30 fxSub 100 fxAttempt fxExam rfl rfl rfl rfl


/-! ## XP reward (claim C3) -/

/-- C3 fails on the code: with raw score −10 the floored final score is
0 and (per the claim) `passed = 0 ≥ 0 = true`, so the claimed XP award is
`0*10 + 50 = 50` and in particular non-negative; the code computes
`int(raw*10) + bonus` from the raw pre-floor score and adds −100 to the
user's balance. -/
theorem C3_counterexample :
    (submitExam cxDb 21 30 cxSub 100).toOption.map
        (fun p => (p.1.xp_earned, p.2.users.map User.xp_points)) = some (-100, [-100]) ∧
    rawScore cxDb cxExam cxSub = -10 ∧
    pyInt (max 0 (rawScore cxDb cxExam cxSub) * 10) +
        (if (cxExam.passing_marks : ℚ) ≤ max 0 (rawScore cxDb cxExam cxSub) then 50 else 0)
      = 50 ∧
    ((-100 : ℤ) < 0 ∧ (-100 : ℤ) ≠ 50) := by
  have hraw : rawScore cxDb cxExam cxSub = -10 := by
    simp +decide [rawScore, cxDb, cxExam, cxSub, cxQ, questionsIn, evalAnswers, evalStep,
      isCorrect, pyStr, pyLower, pyStrip]
  refine ⟨?_, hraw, ?_, by norm_num⟩
  · simp +decide [submitExam, submitOutcome, cxDb, cxExam, cxSub, cxQ, cxAttempt, fxUser,
      questionsIn, evalAnswers, evalStep, isCorrect, pyStr, pyLower, pyStrip, evaluateAttempt,
      pyInt, pyRound2, xpEarned]
    refine ⟨_, _, rfl, by norm_num, by norm_num⟩
  · rw [hraw]
    norm_num [pyInt, cxExam]

/-- C3 amended: the XP added to the user's balance is
`int(raw_score * 10) + (50 if passed else 0)`, where both the truncated
product and the pass bonus are computed from the raw pre-floor score;
the award is non-negative whenever the raw score is (but can be negative
when negative marking drives the raw score below zero). -/
theorem C3_amended_theorem (db : DB) (aid uid : ℕ) (sub : List AnswerSubmit) (now : ℕ)
    (a : Attempt) (exam : Exam)
    (ha : db.attempts.find? (fun x => x.id == aid) = some a)
    (hu : a.user_id = uid) (hs : a.status = AttemptStatus.inProgress)
    (he : db.exams.find? (fun e => e.id == a.exam_id) = some exam) :
    ∃ r db', submitExam db aid uid sub now = .ok (r, db') ∧
      r.xp_earned = xpEarned db exam sub ∧
      xpEarned db exam sub =
        pyInt (rawScore db exam sub * 10) + (if livePassed db exam sub then 50 else 0) ∧
      db'.users = db.users.map
        (fun u => if u.id == uid then
          { u with xp_points := u.xp_points + xpEarned db exam sub } else u) ∧
      (0 ≤ rawScore db exam sub → 0 ≤ xpEarned db exam sub) := by
  subst hu
  have hrun : submitExam db aid a.user_id sub now =
      .ok (submitOutcome db exam a aid a.user_id sub now) := by
    unfold submitExam
    rw [ha]
    simp only [ne_eq, not_true_eq_false, if_false, hs, he]
  refine ⟨_, _, hrun, rfl, rfl, rfl, ?_⟩
  intro h0
  have h1 : (0 : ℚ) ≤ rawScore db exam sub * 10 := mul_nonneg h0 (by norm_num)
  have h2 : 0 ≤ ⌊rawScore db exam sub * 10⌋ := Int.floor_nonneg.mpr h1
  rw [xpEarned, pyInt, if_neg (not_lt.mpr h1)]
  split <;> omega

/-- C3 witness: the amended theorem applied to the end-to-end fixture. -/
theorem C3_amended_witness :
    ∃ r db', submitExam fxDb 20 30 fxSub 100 = .ok (r, db') ∧
      r.xp_earned = xpEarned fxDb fxExam fxSub ∧
      xpEarned fxDb fxExam fxSub =
        pyInt (rawScore fxDb fxExam fxSub * 10) +
          (if livePassed fxDb fxExam fxSub then 50 else 0) ∧
      db'.users = fxDb.users.map
        (fun u => if u.id == 30 then
          { u with xp_points := u.xp_points + xpEarned fxDb fxExam fxSub } else u) ∧
      (0 ≤ rawScore fxDb fxExam fxSub → 0 ≤ xpEarned fxDb fxExam fxSub) :=
  C3_amended_theorem fxDb 20 30 fxSub 100 fxAttempt fxExam rfl rfl rfl rfl


/-! ## Unanswered accounting (claim C4) -/

/-- Each evaluation step records the submitted question id, whether or
not the id belongs to the exam (server.py 1819 runs before the 1821
skip). -/
lemma evalStep_answered (examQs : List Question) (negMarking : Bool) (acc : EvalAcc)
    (ans : AnswerSubmit) :
    (evalStep examQs negMarking acc ans).answered = insert ans.question_id acc.answered := by
  unfold evalStep
  cases examQs.find? fun q => q.id == ans.question_id <;> rfl

/-- Folding the evaluation over a submission accumulates exactly the set
of submitted question ids. -/
lemma foldl_evalStep_answered (examQs : List Question) (negMarking : Bool)
    (sub : List AnswerSubmit) : ∀ acc : EvalAcc,
    (sub.foldl (evalStep examQs negMarking) acc).answered =
      acc.answered ∪ (sub.map AnswerSubmit.question_id).toFinset := by
  induction sub with
  | nil => intro acc; simp
  | cons a l ih =>
    intro acc
    rw [List.foldl_cons, ih, evalStep_answered, List.map_cons, List.toFinset_cons,
      Finset.insert_union, Finset.union_insert]

/-- The `answered_ids` set of the evaluation loop is the set of distinct
submitted question ids. -/
lemma evalAnswers_answered (examQs : List Question) (negMarking : Bool)
    (sub : List AnswerSubmit) :
    (evalAnswers examQs negMarking sub).answered =
      (sub.map AnswerSubmit.question_id).toFinset := by
  rw [evalAnswers, foldl_evalStep_answered]
  exact Finset.empty_union _

/-- Second question of the two-question exam for the foreign-id run. -/
def c4Qa : Question := { id := 5, qtype := .mcqSingle, text := "first", correct_answer := .s "a" }

/-- Second question of the foreign-id fixture. -/
def c4Qb : Question := { id := 6, qtype := .mcqSingle, text := "second", correct_answer := .s "b" }

/-- Published two-question exam. -/
def c4Exam : Exam :=
  { id := 12, title := "pair", category_id := 0, total_marks := 2, passing_marks := 1
    question_ids := [5, 6], status := .published }

/-- In-progress attempt of user 30 on `c4Exam`. -/
def c4Attempt : Attempt :=
  { id := 22, exam_id := 12, exam_version := 1, user_id := 30
    status := .inProgress, started_at := 0 }

/-- Store for the foreign-id run. -/
def c4Db : DB :=
  { questions := [c4Qa, c4Qb], exams := [c4Exam], attempts := [c4Attempt]
    users := [fxUser], nextId := 50 }

/-- A submission answering question 5 plus two ids outside the exam. -/
def c4Sub : List AnswerSubmit :=
  [{ question_id := 5, answer := .s "a" }, { question_id := 99, answer := .s "x" },
   { question_id := 98, answer := .s "y" }]

/-- C4 fails on the code: submitting one exam question and two foreign
ids against a two-question exam persists `unanswered_count = 2 − 3 = −1`,
while the number of exam questions never touched by the submission is 1. -/
theorem C4_counterexample :
    (submitExam c4Db 22 30 c4Sub 100).toOption.map
        (fun p => (p.1.unanswered_count, p.2.attempts.map Attempt.unanswered_count))
      = some (-1, [some (-1)]) ∧
    ((c4Exam.question_ids.filter
        (fun qid => decide (qid ∉ c4Sub.map AnswerSubmit.question_id))).length : ℤ) = 1 ∧
    ((-1 : ℤ) ≠ 1) := by
  refine ⟨?_, by decide, by decide⟩
  simp +decide [submitExam, submitOutcome, c4Db, c4Exam, c4Sub, c4Qa, c4Qb, c4Attempt, fxUser,
    questionsIn, evalAnswers, evalStep, isCorrect, pyStr, pyLower, pyStrip, evaluateAttempt,
    pyInt, pyRound2]

/-- C4 amended: the persisted and returned `unanswered_count` equals
|question_ids| − |distinct submitted question ids| where the distinct
count ranges over ALL submitted ids, foreign ones included; it equals
the number of exam questions never touched by the submission exactly
when every submitted id belongs to the (duplicate-free) question list. -/
theorem C4_amended_theorem (db : DB) (aid uid : ℕ) (sub : List AnswerSubmit) (now : ℕ)
    (a : Attempt) (exam : Exam)
    (ha : db.attempts.find? (fun x => x.id == aid) = some a)
    (hu : a.user_id = uid) (hs : a.status = AttemptStatus.inProgress)
    (he : db.exams.find? (fun e => e.id == a.exam_id) = some exam) :
    ∃ r db', submitExam db aid uid sub now = .ok (r, db') ∧
      r.unanswered_count =
        (exam.question_ids.length : ℤ) -
          ((sub.map AnswerSubmit.question_id).toFinset.card : ℤ) ∧
      (evaluateAttempt db exam a sub now).unanswered_count =
        some ((exam.question_ids.length : ℤ) -
          ((sub.map AnswerSubmit.question_id).toFinset.card : ℤ)) ∧
      db'.attempts = db.attempts.map
        (fun x => if x.id == aid then evaluateAttempt db exam a sub now else x) ∧
      ((∀ i ∈ sub.map AnswerSubmit.question_id, i ∈ exam.question_ids) →
        exam.question_ids.Nodup →
        r.unanswered_count =
          ((exam.question_ids.filter
            (fun qid => decide (qid ∉ sub.map AnswerSubmit.question_id))).length : ℤ)) := by
  subst hu
  have hrun : submitExam db aid a.user_id sub now =
      .ok (submitOutcome db exam a aid a.user_id sub now) := by
    unfold submitExam
    rw [ha]
    simp only [ne_eq, not_true_eq_false, if_false, hs, he]
  have hans := evalAnswers_answered (questionsIn db exam.question_ids)
    exam.negative_marking sub
  have hcnt : (submitOutcome db exam a aid a.user_id sub now).1.unanswered_count =
      (exam.question_ids.length : ℤ) -
        ((sub.map AnswerSubmit.question_id).toFinset.card : ℤ) := by
    simp only [submitOutcome, hans]
  refine ⟨_, _, hrun, hcnt, ?_, rfl, ?_⟩
  · simp only [evaluateAttempt, hans]
  · intro hsub hnd
    refine hcnt.trans ?_
    have hA : (sub.map AnswerSubmit.question_id).toFinset ⊆ exam.question_ids.toFinset := by
      intro i hi
      rw [List.mem_toFinset] at hi ⊢
      exact hsub i hi
    have hqc : exam.question_ids.toFinset.card = exam.question_ids.length :=
      List.toFinset_card_of_nodup hnd
    have hsd : (exam.question_ids.toFinset \ (sub.map AnswerSubmit.question_id).toFinset).card
        = exam.question_ids.toFinset.card - (sub.map AnswerSubmit.question_id).toFinset.card :=
      Finset.card_sdiff hA
    have hle : (sub.map AnswerSubmit.question_id).toFinset.card ≤
        exam.question_ids.toFinset.card := Finset.card_le_card hA
    have hfl : (exam.question_ids.filter
        (fun qid => decide (qid ∉ sub.map AnswerSubmit.question_id))).length
        = (exam.question_ids.toFinset \ (sub.map AnswerSubmit.question_id).toFinset).card := by
      rw [← List.toFinset_card_of_nodup (hnd.filter _), List.toFinset_filter,
        Finset.sdiff_eq_filter]
      congr 1
      apply Finset.filter_congr
      intro i _
      simp
    rw [hfl]
    omega

/-- C4 witness: the amended theorem applied to the end-to-end fixture. -/
theorem C4_amended_witness :
    ∃ r db', submitExam fxDb 20 30 fxSub 100 = .ok (r, db') ∧
      r.unanswered_count =
        (fxExam.question_ids.length : ℤ) -
          ((fxSub.map AnswerSubmit.question_id).toFinset.card : ℤ) ∧
      (evaluateAttempt fxDb fxExam fxAttempt fxSub 100).unanswered_count =
        some ((fxExam.question_ids.length : ℤ) -
          ((fxSub.map AnswerSubmit.question_id).toFinset.card : ℤ)) ∧
      db'.attempts = fxDb.attempts.map
        (fun x => if x.id == 20 then evaluateAttempt fxDb fxExam fxAttempt fxSub 100 else x) ∧
      ((∀ i ∈ fxSub.map AnswerSubmit.question_id, i ∈ fxExam.question_ids) →
        fxExam.question_ids.Nodup →
        r.unanswered_count =
          ((fxExam.question_ids.filter
            (fun qid => decide (qid ∉ fxSub.map AnswerSubmit.question_id))).length : ℤ)) :=
  C4_amended_theorem fxDb 20 30 fxSub 100 fxAttempt fxExam rfl rfl rfl rfl


/-! ## Global score floor (claim C9) -/

/-- The signed score contribution of one submitted answer: +marks when
correct, −negative_marks when incorrect under negative marking, 0 when
incorrect without negative marking or when the id is not in the exam. -/
def answerDelta (examQs : List Question) (negMarking : Bool) (ans : AnswerSubmit) : ℚ :=
  match examQs.find? fun q => q.id == ans.question_id with
  | none => 0
  | some q =>
    if isCorrect q ans.answer then (q.marks : ℚ)
    else if negMarking then -q.negative_marks else 0

/-- One evaluation step adds exactly the answer's signed contribution to
the running score. -/
lemma evalStep_score (examQs : List Question) (negMarking : Bool) (acc : EvalAcc)
    (ans : AnswerSubmit) :
    (evalStep examQs negMarking acc ans).score =
      acc.score + answerDelta examQs negMarking ans := by
  unfold evalStep answerDelta
  cases examQs.find? fun q => q.id == ans.question_id with
  | none => exact (add_zero _).symm
  | some q =>
    by_cases hc : isCorrect q ans.answer
    · simp [hc]
    · by_cases hn : negMarking <;> simp [hc, hn, sub_eq_add_neg]

/-- The running score after the whole loop is the sum of the signed
contributions. -/
lemma foldl_evalStep_score (examQs : List Question) (negMarking : Bool)
    (sub : List AnswerSubmit) : ∀ acc : EvalAcc,
    (sub.foldl (evalStep examQs negMarking) acc).score =
      acc.score + (sub.map (answerDelta examQs negMarking)).sum := by
  induction sub with
  | nil => intro acc; simp
  | cons a l ih =>
    intro acc
    rw [List.foldl_cons, ih, evalStep_score, List.map_cons, List.sum_cons]
    ring

/-- The raw score is the sum of the per-answer signed contributions. -/
lemma evalAnswers_score (examQs : List Question) (negMarking : Bool)
    (sub : List AnswerSubmit) :
    (evalAnswers examQs negMarking sub).score =
      (sub.map (answerDelta examQs negMarking)).sum := by
  rw [evalAnswers, foldl_evalStep_score]
  exact zero_add _

/-- C9: every successful SubmitAttempt persists
`score = max(0, raw_score)` where the raw score is the signed sum of
+marks / −negative_marks contributions accumulated over the submitted
answers; the floor is applied once after the loop, and the stored score
is never negative. -/
theorem C9_score_floor (db : DB) (aid uid : ℕ) (sub : List AnswerSubmit) (now : ℕ)
    (a : Attempt) (exam : Exam)
    (ha : db.attempts.find? (fun x => x.id == aid) = some a)
    (hu : a.user_id = uid) (hs : a.status = AttemptStatus.inProgress)
    (he : db.exams.find? (fun e => e.id == a.exam_id) = some exam) :
    ∃ r db', submitExam db aid uid sub now = .ok (r, db') ∧
      db'.attempts = db.attempts.map
        (fun x => if x.id == aid then evaluateAttempt db exam a sub now else x) ∧
      (evaluateAttempt db exam a sub now).score = some (max 0 (rawScore db exam sub)) ∧
      r.score = max 0 (rawScore db exam sub) ∧
      rawScore db exam sub =
        (sub.map (answerDelta (questionsIn db exam.question_ids)
          exam.negative_marking)).sum ∧
      (0 : ℚ) ≤ max 0 (rawScore db exam sub) := by
  subst hu
  have hrun : submitExam db aid a.user_id sub now =
      .ok (submitOutcome db exam a aid a.user_id sub now) := by
    unfold submitExam
    rw [ha]
    simp only [ne_eq, not_true_eq_false, if_false, hs, he]
  exact ⟨_, _, hrun, rfl, rfl, rfl,
    evalAnswers_score (questionsIn db exam.question_ids) exam.negative_marking sub,
    le_max_left 0 _⟩

/-- C9 witness: the floor theorem applied to the negative-score fixture
(raw score −10, stored score 0). -/
theorem C9_score_floor_witness :
    ∃ r db', submitExam cxDb 21 30 cxSub 100 = .ok (r, db') ∧
      db'.attempts = cxDb.attempts.map
        (fun x => if x.id == 21 then evaluateAttempt cxDb cxExam cxAttempt cxSub 100 else x) ∧
      (evaluateAttempt cxDb cxExam cxAttempt cxSub 100).score =
        some (max 0 (rawScore cxDb cxExam cxSub)) ∧
      r.score = max 0 (rawScore cxDb cxExam cxSub) ∧
      rawScore cxDb cxExam cxSub =
        (cxSub.map (answerDelta (questionsIn cxDb cxExam.question_ids)
          cxExam.negative_marking)).sum ∧
      (0 : ℚ) ≤ max 0 (rawScore cxDb cxExam cxSub) :=
  C9_score_floor cxDb 21 30 cxSub 100 cxAttempt cxExam rfl rfl rfl rfl



/-! ## Derived total_marks (claim C2) -/

/-- No referenced questions, no marks. -/
lemma marksSum_nil (db : DB) : marksSum db [] = 0 := by
  simp [marksSum, questionsIn]

/-- 5-mark question for the total_marks fixtures. -/
def c2Qa : Question :=
  { id := 7, qtype := .mcqSingle, text := "five", correct_answer := .s "a", marks := 5 }

/-- 3-mark question for the total_marks fixtures. -/
def c2Qb : Question :=
  { id := 8, qtype := .mcqSingle, text := "three", correct_answer := .s "b", marks := 3 }

/-- Published exam whose single question is worth 5 marks. -/
def c2Exam : Exam :=
  { id := 13, title := "pub", category_id := 0, total_marks := 5, passing_marks := 2
    question_ids := [7], status := .published }

/-- Draft twin of `c2Exam`. -/
def c2DraftExam : Exam :=
  { id := 14, title := "draft twin", category_id := 0, total_marks := 5, passing_marks := 2
    question_ids := [7], status := .draft }

/-- Store holding the published exam. -/
def c2Db : DB := { questions := [c2Qa, c2Qb], exams := [c2Exam], nextId := 60 }

/-- Store holding the draft exam. -/
def c2DraftDb : DB := { questions := [c2Qa, c2Qb], exams := [c2DraftExam], nextId := 60 }

/-- A patch replacing the question set by the 3-mark question. -/
def c2Patch : ExamUpdate := { question_ids := some [8] }

/-- A creation request with no questions and client total 100. -/
def c2Create : ExamCreate := { title := "fresh", category_id := 0, total_marks := 100 }

/-- C2 fails on the code in two places: CreateExam with an empty
question list stores the client-supplied `total_marks` 100 (Python
`total_marks or exam_data.total_marks`), not the sum 0; and the
version-fork path of UpdateExam copies the stale `total_marks` 5 into
the clone instead of recomputing the new set's sum 3. -/
theorem C2_counterexample :
    ((createExam c2Db c2Create 0).1.total_marks = 100 ∧
      marksSum c2Db c2Create.question_ids = 0 ∧ (100 : ℤ) ≠ 0) ∧
    ((updateExam c2Db 13 c2Patch 0).toOption.map (fun p => p.1.total_marks) = some 5 ∧
      marksSum c2Db [8] = 3 ∧ (5 : ℤ) ≠ 3) := by
  refine ⟨⟨by decide, by decide, by decide⟩, ⟨by decide, by decide, by decide⟩⟩

/-- C2 amended: after CreateExam, `total_marks` is the sum of the found
referenced questions' marks when that sum is non-zero, else the
client-supplied value; an in-place UpdateExam (DRAFT exam) whose patch
includes `question_ids` recomputes `total_marks` as that sum; the
version-fork path does not recompute — the clone keeps the patched (or
original) `total_marks`. -/
theorem C2_amended_theorem :
    (∀ (db : DB) (data : ExamCreate) (now : ℕ),
      (createExam db data now).1.total_marks =
        (if marksSum db data.question_ids = 0 then data.total_marks
         else marksSum db data.question_ids) ∧
      (createExam db data now).2.exams = db.exams ++ [(createExam db data now).1]) ∧
    (∀ (db : DB) (eid : ℕ) (u : ExamUpdate) (now : ℕ) (exam : Exam) (qids : List ℕ),
      db.exams.find? (fun e => e.id == eid) = some exam →
      exam.status = ExamStatus.draft →
      u.question_ids = some qids →
      ∃ e' db', updateExam db eid u now = .ok (e', db') ∧
        e'.total_marks = marksSum db qids ∧
        db'.exams = db.exams.map (fun e => if e.id == eid then e' else e)) ∧
    (∀ (db : DB) (eid : ℕ) (u : ExamUpdate) (now : ℕ) (exam : Exam),
      db.exams.find? (fun e => e.id == eid) = some exam →
      exam.status ≠ ExamStatus.draft →
      u.question_ids ≠ none →
      ∃ e' db', updateExam db eid u now = .ok (e', db') ∧
        e' = forkExam db exam u now ∧
        e'.total_marks = u.total_marks.getD exam.total_marks) := by
  refine ⟨?_, ?_, ?_⟩
  · intro db data now
    refine ⟨?_, rfl⟩
    show (if (if data.question_ids.isEmpty then (0 : ℤ)
          else marksSum db data.question_ids) = 0 then data.total_marks
        else if data.question_ids.isEmpty then (0 : ℤ)
          else marksSum db data.question_ids) = _
    by_cases hq : data.question_ids.isEmpty
    · have hnil : data.question_ids = [] := List.isEmpty_iff.mp hq
      rw [hnil, marksSum_nil]
      simp
    · simp only [hq, Bool.false_eq_true, if_false]
  · intro db eid u now exam qids hfind hdraft hq
    have hrun : updateExam db eid u now =
        .ok (inPlaceExam db exam u now, inPlaceDB db eid exam u now) := by
      unfold updateExam
      rw [hfind]
      simp only [hdraft, ne_eq, not_true_eq_false, false_and, if_false]
    have hm : (inPlaceExam db exam u now).total_marks = marksSum db qids := by
      simp only [inPlaceExam, hq, ne_eq, reduceCtorEq, not_false_eq_true, if_true,
        Option.getD_some]
    exact ⟨_, _, hrun, hm, rfl⟩
  · intro db eid u now exam hfind hst hq
    have hrun : updateExam db eid u now =
        .ok (forkExam db exam u now, forkDB db exam u now) := by
      unfold updateExam
      rw [hfind]
      simp only [hst, hq, ne_eq, not_false_eq_true, and_self, if_true]
    exact ⟨_, _, hrun, rfl, rfl⟩

/-- C2 witness: the amended theorem applied to the fixtures. -/
theorem C2_amended_witness :
    ((createExam c2Db c2Create 0).1.total_marks =
      (if marksSum c2Db c2Create.question_ids = 0 then c2Create.total_marks
       else marksSum c2Db c2Create.question_ids)) ∧
    (∃ e' db', updateExam c2DraftDb 14 c2Patch 0 = .ok (e', db') ∧
      e'.total_marks = marksSum c2DraftDb [8] ∧
      db'.exams = c2DraftDb.exams.map (fun e => if e.id == 14 then e' else e)) ∧
    (∃ e' db', updateExam c2Db 13 c2Patch 0 = .ok (e', db') ∧
      e' = forkExam c2Db c2Exam c2Patch 0 ∧
      e'.total_marks = c2Patch.total_marks.getD c2Exam.total_marks) :=
  ⟨(C2_amended_theorem.1 c2Db c2Create 0).1,
   C2_amended_theorem.2.1 c2DraftDb 14 c2Patch 0 c2DraftExam [8] rfl rfl rfl,
   C2_amended_theorem.2.2 c2Db 13 c2Patch 0 c2Exam rfl (by decide) (by decide)⟩


/-! ## Versioning fork frame property (claim C6) -/

/-- C6: updating a non-DRAFT exam with a patch touching `question_ids`
persists a clone with `version = original + 1`, `status = DRAFT` and a
fresh identity, appended to the store; the original record stays in the
store unchanged and the attempts table is untouched.  The freshness
hypothesis is the store invariant that every persisted id is below the
id counter. -/
theorem C6_version_fork (db : DB) (eid : ℕ) (u : ExamUpdate) (now : ℕ) (exam : Exam)
    (hfind : db.exams.find? (fun e => e.id == eid) = some exam)
    (hst : exam.status ≠ ExamStatus.draft)
    (hq : u.question_ids ≠ none)
    (hfresh : ∀ e ∈ db.exams, e.id < db.nextId) :
    updateExam db eid u now = .ok (forkExam db exam u now, forkDB db exam u now) ∧
    (forkExam db exam u now).version = exam.version + 1 ∧
    (forkExam db exam u now).status = ExamStatus.draft ∧
    (forkExam db exam u now).id = db.nextId ∧
    exam.id ≠ (forkExam db exam u now).id ∧
    (forkDB db exam u now).exams = db.exams ++ [forkExam db exam u now] ∧
    exam ∈ (forkDB db exam u now).exams ∧
    (forkDB db exam u now).attempts = db.attempts := by
  have hmem : exam ∈ db.exams := List.mem_of_find?_eq_some hfind
  have hrun : updateExam db eid u now = .ok (forkExam db exam u now, forkDB db exam u now) := by
    unfold updateExam
    rw [hfind]
    simp only [hst, hq, ne_eq, not_false_eq_true, and_self, if_true]
  refine ⟨hrun, rfl, rfl, rfl, ?_, rfl, List.mem_append_left _ hmem, rfl⟩
  exact Nat.ne_of_lt (hfresh exam hmem)

/-- C6 witness: the fork theorem applied to the published fixture. -/
theorem C6_version_fork_witness :
    updateExam c2Db 13 c2Patch 0 = .ok (forkExam c2Db c2Exam c2Patch 0, forkDB c2Db c2Exam c2Patch 0) ∧
    (forkExam c2Db c2Exam c2Patch 0).version = c2Exam.version + 1 ∧
    (forkExam c2Db c2Exam c2Patch 0).status = ExamStatus.draft ∧
    (forkExam c2Db c2Exam c2Patch 0).id = c2Db.nextId ∧
    c2Exam.id ≠ (forkExam c2Db c2Exam c2Patch 0).id ∧
    (forkDB c2Db c2Exam c2Patch 0).exams = c2Db.exams ++ [forkExam c2Db c2Exam c2Patch 0] ∧
    c2Exam ∈ (forkDB c2Db c2Exam c2Patch 0).exams ∧
    (forkDB c2Db c2Exam c2Patch 0).attempts = c2Db.attempts :=
  C6_version_fork c2Db 13 c2Patch 0 c2Exam rfl (by decide) (by decide) (by decide)

/-! ## Run equations and inversions for the store operations -/

/-- `update_exam` on a missing exam is a 404. -/
lemma updateExam_notFound {db : DB} {eid : ℕ} (u : ExamUpdate) (now : ℕ)
    (hfind : db.exams.find? (fun e => e.id == eid) = none) :
    updateExam db eid u now = .error .notFound := by
  unfold updateExam
  rw [hfind]

/-- Run equation of the versioning branch of `update_exam`. -/
lemma updateExam_fork_eq {db : DB} {eid : ℕ} {u : ExamUpdate} {now : ℕ} {exam : Exam}
    (hfind : db.exams.find? (fun e => e.id == eid) = some exam)
    (hcond : exam.status ≠ ExamStatus.draft ∧ u.question_ids ≠ none) :
    updateExam db eid u now = .ok (forkExam db exam u now, forkDB db exam u now) := by
  unfold updateExam
  rw [hfind]
  show (if exam.status ≠ ExamStatus.draft ∧ u.question_ids ≠ none then
      Except.ok (forkExam db exam u now, forkDB db exam u now)
    else Except.ok (inPlaceExam db exam u now, inPlaceDB db eid exam u now)) = _
  rw [if_pos hcond]

/-- Run equation of the in-place branch of `update_exam`. -/
lemma updateExam_inplace_eq {db : DB} {eid : ℕ} {u : ExamUpdate} {now : ℕ} {exam : Exam}
    (hfind : db.exams.find? (fun e => e.id == eid) = some exam)
    (hcond : ¬(exam.status ≠ ExamStatus.draft ∧ u.question_ids ≠ none)) :
    updateExam db eid u now = .ok (inPlaceExam db exam u now, inPlaceDB db eid exam u now) := by
  unfold updateExam
  rw [hfind]
  show (if exam.status ≠ ExamStatus.draft ∧ u.question_ids ≠ none then
      Except.ok (forkExam db exam u now, forkDB db exam u now)
    else Except.ok (inPlaceExam db exam u now, inPlaceDB db eid exam u now)) = _
  rw [if_neg hcond]

/-- A successful `update_exam` never touches the attempts table. -/
lemma updateExam_attempts {db : DB} {eid : ℕ} {u : ExamUpdate} {now : ℕ}
    {e' : Exam} {db' : DB}
    (h : updateExam db eid u now = .ok (e', db')) : db'.attempts = db.attempts := by
  cases hfind : db.exams.find? fun e => e.id == eid with
  | none => rw [updateExam_notFound u now hfind] at h; exact absurd h (by simp)
  | some exam =>
    by_cases hcond : exam.status ≠ ExamStatus.draft ∧ u.question_ids ≠ none
    · rw [updateExam_fork_eq hfind hcond] at h
      simp only [Except.ok.injEq, Prod.mk.injEq] at h
      rw [← h.2]
      rfl
    · rw [updateExam_inplace_eq hfind hcond] at h
      simp only [Except.ok.injEq, Prod.mk.injEq] at h
      rw [← h.2]
      rfl

/-- Run equation of the resume branch of `start_exam`. -/
lemma startExam_resume_eq {db : DB} {eid uid now : ℕ}
    {shf : List QuestionPublic → List QuestionPublic} {exam : Exam} {ex : Attempt}
    (hfind : db.exams.find? (fun e => e.id == eid) = some exam)
    (havail : ¬(exam.status ≠ ExamStatus.published ∧ exam.status ≠ ExamStatus.active))
    (hex : db.attempts.find? (isActiveFor eid uid) = some ex) :
    startExam db eid uid now shf = .ok (resumeResult db exam ex now, db) := by
  unfold startExam
  rw [hfind]
  show (if exam.status ≠ ExamStatus.published ∧ exam.status ≠ ExamStatus.active then
      Except.error Err.notAvailable
    else match db.attempts.find? (isActiveFor eid uid) with
      | some existing => Except.ok (resumeResult db exam existing now, db)
      | none => Except.ok (newStartResult db exam now shf, startDB db exam eid uid now)) = _
  rw [if_neg havail, hex]

/-- Run equation of the fresh-attempt branch of `start_exam`. -/
lemma startExam_new_eq {db : DB} {eid uid now : ℕ}
    {shf : List QuestionPublic → List QuestionPublic} {exam : Exam}
    (hfind : db.exams.find? (fun e => e.id == eid) = some exam)
    (havail : ¬(exam.status ≠ ExamStatus.published ∧ exam.status ≠ ExamStatus.active))
    (hex : db.attempts.find? (isActiveFor eid uid) = none) :
    startExam db eid uid now shf =
      .ok (newStartResult db exam now shf, startDB db exam eid uid now) := by
  unfold startExam
  rw [hfind]
  show (if exam.status ≠ ExamStatus.published ∧ exam.status ≠ ExamStatus.active then
      Except.error Err.notAvailable
    else match db.attempts.find? (isActiveFor eid uid) with
      | some existing => Except.ok (resumeResult db exam existing now, db)
      | none => Except.ok (newStartResult db exam now shf, startDB db exam eid uid now)) = _
  rw [if_neg havail, hex]

/-- Inversion of a successful `start_exam`. -/
lemma startExam_inversion {db : DB} {eid uid now : ℕ}
    {shf : List QuestionPublic → List QuestionPublic} {r : StartResult} {db' : DB}
    (h : startExam db eid uid now shf = .ok (r, db')) :
    ∃ exam, db.exams.find? (fun e => e.id == eid) = some exam ∧
      ¬(exam.status ≠ ExamStatus.published ∧ exam.status ≠ ExamStatus.active) ∧
      ((∃ ex, db.attempts.find? (isActiveFor eid uid) = some ex ∧
          r = resumeResult db exam ex now ∧ db' = db) ∨
       (db.attempts.find? (isActiveFor eid uid) = none ∧
          r = newStartResult db exam now shf ∧ db' = startDB db exam eid uid now)) := by
  cases hfind : db.exams.find? fun e => e.id == eid with
  | none =>
    rw [show startExam db eid uid now shf = .error .notFound from by
      unfold startExam; rw [hfind]] at h
    exact absurd h (by simp)
  | some exam =>
    by_cases havail : exam.status ≠ ExamStatus.published ∧ exam.status ≠ ExamStatus.active
    · rw [show startExam db eid uid now shf = .error .notAvailable from by
        unfold startExam
        rw [hfind]
        show (if exam.status ≠ ExamStatus.published ∧ exam.status ≠ ExamStatus.active then
            Except.error Err.notAvailable
          else match db.attempts.find? (isActiveFor eid uid) with
            | some existing => Except.ok (resumeResult db exam existing now, db)
            | none => Except.ok (newStartResult db exam now shf, startDB db exam eid uid now)) = _
        rw [if_pos havail]] at h
      exact absurd h (by simp)
    · cases hex : db.attempts.find? (isActiveFor eid uid) with
      | some ex =>
        rw [startExam_resume_eq hfind havail hex] at h
        simp only [Except.ok.injEq, Prod.mk.injEq] at h
        exact ⟨exam, rfl, havail, Or.inl ⟨ex, rfl, h.1.symm, h.2.symm⟩⟩
      | none =>
        rw [startExam_new_eq hfind havail hex] at h
        simp only [Except.ok.injEq, Prod.mk.injEq] at h
        exact ⟨exam, rfl, havail, Or.inr ⟨rfl, h.1.symm, h.2.symm⟩⟩

/-- Run equation of a validated `sync_answers`. -/
lemma syncAnswers_ok_eq {db : DB} {aid uid : ℕ} {ans : List AnswerSubmit} {now : ℕ}
    {att : Attempt}
    (hfind : db.attempts.find? (fun a => a.id == aid) = some att)
    (huser : att.user_id = uid) (hstatus : att.status = AttemptStatus.inProgress) :
    syncAnswers db aid uid ans now = .ok (ans.length, syncDB db aid ans now) := by
  unfold syncAnswers
  rw [hfind]
  show (if att.user_id ≠ uid then Except.error Err.notFound
    else if att.status ≠ AttemptStatus.inProgress then Except.error Err.alreadySubmitted
    else Except.ok (ans.length, syncDB db aid ans now)) = _
  rw [if_neg (not_ne_iff.mpr huser), if_neg (not_ne_iff.mpr hstatus)]

/-- `sync_answers` on a no-longer-IN_PROGRESS attempt is the 400
"Attempt already submitted". -/
lemma syncAnswers_already_eq {db : DB} {aid uid : ℕ} (ans : List AnswerSubmit) (now : ℕ)
    {att : Attempt}
    (hfind : db.attempts.find? (fun a => a.id == aid) = some att)
    (huser : att.user_id = uid) (hstatus : att.status ≠ AttemptStatus.inProgress) :
    syncAnswers db aid uid ans now = .error .alreadySubmitted := by
  unfold syncAnswers
  rw [hfind]
  show (if att.user_id ≠ uid then Except.error Err.notFound
    else if att.status ≠ AttemptStatus.inProgress then Except.error Err.alreadySubmitted
    else Except.ok (ans.length, syncDB db aid ans now)) = _
  rw [if_neg (not_ne_iff.mpr huser), if_pos hstatus]

/-- Inversion of a successful `sync_answers`. -/
lemma syncAnswers_inversion {db : DB} {aid uid : ℕ} {ans : List AnswerSubmit}
    {now n : ℕ} {db' : DB}
    (h : syncAnswers db aid uid ans now = .ok (n, db')) :
    ∃ att, db.attempts.find? (fun a => a.id == aid) = some att ∧
      att.user_id = uid ∧ att.status = AttemptStatus.inProgress ∧
      db' = syncDB db aid ans now := by
  cases hfind : db.attempts.find? fun a => a.id == aid with
  | none =>
    rw [show syncAnswers db aid uid ans now = .error .notFound from by
      unfold syncAnswers; rw [hfind]] at h
    exact absurd h (by simp)
  | some att =>
    by_cases huser : att.user_id = uid
    · by_cases hstatus : att.status = AttemptStatus.inProgress
      · rw [syncAnswers_ok_eq hfind huser hstatus] at h
        simp only [Except.ok.injEq, Prod.mk.injEq] at h
        exact ⟨att, rfl, huser, hstatus, h.2.symm⟩
      · rw [syncAnswers_already_eq ans now hfind huser hstatus] at h
        exact absurd h (by simp)
    · rw [show syncAnswers db aid uid ans now = .error .notFound from by
        unfold syncAnswers
        rw [hfind]
        show (if att.user_id ≠ uid then Except.error Err.notFound
          else if att.status ≠ AttemptStatus.inProgress then Except.error Err.alreadySubmitted
          else Except.ok (ans.length, syncDB db aid ans now)) = _
        rw [if_pos huser]] at h
      exact absurd h (by simp)

/-- Run equation of a validated `submit_exam`. -/
lemma submitExam_ok_eq {db : DB} {aid uid : ℕ} {sub : List AnswerSubmit} {now : ℕ}
    {att : Attempt} {exam : Exam}
    (hfind : db.attempts.find? (fun a => a.id == aid) = some att)
    (huser : att.user_id = uid) (hstatus : att.status = AttemptStatus.inProgress)
    (hexam : db.exams.find? (fun e => e.id == att.exam_id) = some exam) :
    submitExam db aid uid sub now = .ok (submitOutcome db exam att aid uid sub now) := by
  unfold submitExam
  rw [hfind]
  show (if att.user_id ≠ uid then Except.error Err.forbidden
    else if att.status ≠ AttemptStatus.inProgress then Except.error Err.alreadySubmitted
    else match db.exams.find? (fun e => e.id == att.exam_id) with
      | none => Except.error Err.internalError
      | some exam => Except.ok (submitOutcome db exam att aid uid sub now)) = _
  rw [if_neg (not_ne_iff.mpr huser), if_neg (not_ne_iff.mpr hstatus), hexam]

/-- `submit_exam` on a no-longer-IN_PROGRESS attempt is the 400
"Attempt already submitted". -/
lemma submitExam_already_eq {db : DB} {aid uid : ℕ} (sub : List AnswerSubmit) (now : ℕ)
    {att : Attempt}
    (hfind : db.attempts.find? (fun a => a.id == aid) = some att)
    (huser : att.user_id = uid) (hstatus : att.status ≠ AttemptStatus.inProgress) :
    submitExam db aid uid sub now = .error .alreadySubmitted := by
  unfold submitExam
  rw [hfind]
  show (if att.user_id ≠ uid then Except.error Err.forbidden
    else if att.status ≠ AttemptStatus.inProgress then Except.error Err.alreadySubmitted
    else match db.exams.find? (fun e => e.id == att.exam_id) with
      | none => Except.error Err.internalError
      | some exam => Except.ok (submitOutcome db exam att aid uid sub now)) = _
  rw [if_neg (not_ne_iff.mpr huser), if_pos hstatus]

/-- Inversion of a successful `submit_exam`. -/
lemma submitExam_inversion {db : DB} {aid uid : ℕ} {sub : List AnswerSubmit}
    {now : ℕ} {r : SubmitResult} {db' : DB}
    (h : submitExam db aid uid sub now = .ok (r, db')) :
    ∃ att exam, db.attempts.find? (fun a => a.id == aid) = some att ∧
      att.user_id = uid ∧ att.status = AttemptStatus.inProgress ∧
      db.exams.find? (fun e => e.id == att.exam_id) = some exam ∧
      r = (submitOutcome db exam att aid uid sub now).1 ∧
      db' = (submitOutcome db exam att aid uid sub now).2 := by
  cases hfind : db.attempts.find? fun a => a.id == aid with
  | none =>
    rw [show submitExam db aid uid sub now = .error .notFound from by
      unfold submitExam; rw [hfind]] at h
    exact absurd h (by simp)
  | some att =>
    by_cases huser : att.user_id = uid
    · by_cases hstatus : att.status = AttemptStatus.inProgress
      · cases hexam : db.exams.find? fun e => e.id == att.exam_id with
        | none =>
          rw [show submitExam db aid uid sub now = .error .internalError from by
            unfold submitExam
            rw [hfind]
            show (if att.user_id ≠ uid then Except.error Err.forbidden
              else if att.status ≠ AttemptStatus.inProgress then
                Except.error Err.alreadySubmitted
              else match db.exams.find? (fun e => e.id == att.exam_id) with
                | none => Except.error Err.internalError
                | some exam => Except.ok (submitOutcome db exam att aid uid sub now)) = _
            rw [if_neg (not_ne_iff.mpr huser), if_neg (not_ne_iff.mpr hstatus), hexam]] at h
          exact absurd h (by simp)
        | some exam =>
          rw [submitExam_ok_eq hfind huser hstatus hexam] at h
          simp only [Except.ok.injEq] at h
          have h1 : (submitOutcome db exam att aid uid sub now).1 = r := by rw [h]
          have h2 : (submitOutcome db exam att aid uid sub now).2 = db' := by rw [h]
          exact ⟨att, exam, rfl, huser, hstatus, hexam, h1.symm, h2.symm⟩
      · rw [submitExam_already_eq sub now hfind huser hstatus] at h
        exact absurd h (by simp)
    · rw [show submitExam db aid uid sub now = .error .forbidden from by
        unfold submitExam
        rw [hfind]
        show (if att.user_id ≠ uid then Except.error Err.forbidden
          else if att.status ≠ AttemptStatus.inProgress then Except.error Err.alreadySubmitted
          else match db.exams.find? (fun e => e.id == att.exam_id) with
            | none => Except.error Err.internalError
            | some exam => Except.ok (submitOutcome db exam att aid uid sub now)) = _
        rw [if_pos huser]] at h
      exact absurd h (by simp)

/-! ## At most one IN_PROGRESS attempt per (user, exam) (claim C8) -/

/-- The at-most-one-active store invariant: for every (exam, user) pair
at most one stored attempt is IN_PROGRESS. -/
def atMostOneActive (db : DB) : Prop :=
  ∀ e u : ℕ, db.attempts.countP (isActiveFor e u) ≤ 1

/-- Syncing answers does not change whether a record counts as the
active attempt of any pair. -/
lemma isActiveFor_sync (e u aid : ℕ) (ans : List AnswerSubmit) (now : ℕ) (a : Attempt) :
    isActiveFor e u (if a.id == aid then { a with answers := ans, last_sync := some now }
      else a) = isActiveFor e u a := by
  by_cases h : (a.id == aid) = true
  · rw [if_pos h]; rfl
  · rw [if_neg h]

/-- An evaluated attempt never counts as active. -/
lemma isActiveFor_evaluated (e u : ℕ) (db : DB) (exam : Exam) (att : Attempt)
    (sub : List AnswerSubmit) (now : ℕ) :
    isActiveFor e u (evaluateAttempt db exam att sub now) = false := by
  simp [isActiveFor, evaluateAttempt]

/-- A fresh attempt counts as active exactly for its own pair. -/
lemma isActiveFor_new (e u : ℕ) (db : DB) (exam : Exam) (eid uid now : ℕ) :
    isActiveFor e u (startAttemptRec db exam eid uid now) = ((eid == e) && (uid == u)) := by
  simp only [isActiveFor, startAttemptRec, decide_eq_true_eq]
  simp

/-- `create_exam` preserves the at-most-one-active invariant (it never
touches attempts). -/
lemma create_preserves (db : DB) (data : ExamCreate) (now : ℕ)
    (hinv : atMostOneActive db) : atMostOneActive (createExam db data now).2 := hinv

/-- `update_exam` preserves the at-most-one-active invariant. -/
lemma update_preserves {db : DB} {eid : ℕ} {u : ExamUpdate} {now : ℕ} {e' : Exam} {db' : DB}
    (hinv : atMostOneActive db) (h : updateExam db eid u now = .ok (e', db')) :
    atMostOneActive db' := by
  intro e v
  rw [updateExam_attempts h]
  exact hinv e v

/-- `sync_answers` preserves the at-most-one-active invariant. -/
lemma sync_preserves {db : DB} {aid uid : ℕ} {ans : List AnswerSubmit} {now n : ℕ} {db' : DB}
    (hinv : atMostOneActive db) (h : syncAnswers db aid uid ans now = .ok (n, db')) :
    atMostOneActive db' := by
  obtain ⟨att, -, -, -, rfl⟩ := syncAnswers_inversion h
  intro e v
  show ((db.attempts.map fun a =>
    if a.id == aid then { a with answers := ans, last_sync := some now } else a).countP
      (isActiveFor e v)) ≤ 1
  rw [List.countP_map]
  calc db.attempts.countP (isActiveFor e v ∘ fun a =>
        if a.id == aid then { a with answers := ans, last_sync := some now } else a)
      = db.attempts.countP (isActiveFor e v) := by
        congr 1
        funext a
        exact isActiveFor_sync e v aid ans now a
    _ ≤ 1 := hinv e v

/-- `submit_exam` preserves the at-most-one-active invariant (it only
retires an active attempt). -/
lemma submit_preserves {db : DB} {aid uid : ℕ} {sub : List AnswerSubmit} {now : ℕ}
    {r : SubmitResult} {db' : DB}
    (hinv : atMostOneActive db) (h : submitExam db aid uid sub now = .ok (r, db')) :
    atMostOneActive db' := by
  obtain ⟨att, exam, -, -, -, -, -, rfl⟩ := submitExam_inversion h
  intro e v
  show ((db.attempts.map fun a =>
    if a.id == aid then evaluateAttempt db exam att sub now else a).countP
      (isActiveFor e v)) ≤ 1
  rw [List.countP_map]
  calc db.attempts.countP (isActiveFor e v ∘ fun a =>
        if a.id == aid then evaluateAttempt db exam att sub now else a)
      ≤ db.attempts.countP (isActiveFor e v) := by
        apply List.countP_mono_left
        intro a _ hp
        by_cases hid : (a.id == aid) = true
        · exfalso
          simp only [Function.comp_apply, hid, if_true, isActiveFor_evaluated] at hp
          cases hp
        · simpa only [Function.comp_apply, hid, if_false] using hp
    _ ≤ 1 := hinv e v

/-- `start_exam` preserves the at-most-one-active invariant: it either
resumes without writing, or inserts the only active attempt of its
pair. -/
lemma start_preserves {db : DB} {eid uid now : ℕ}
    {shf : List QuestionPublic → List QuestionPublic} {r : StartResult} {db' : DB}
    (hinv : atMostOneActive db) (h : startExam db eid uid now shf = .ok (r, db')) :
    atMostOneActive db' := by
  obtain ⟨exam, -, -, hcase⟩ := startExam_inversion h
  rcases hcase with ⟨ex, -, -, rfl⟩ | ⟨hnone, -, rfl⟩
  · exact hinv
  · intro e v
    show ((db.attempts ++ [startAttemptRec db exam eid uid now]).countP (isActiveFor e v)) ≤ 1
    rw [List.countP_append]
    by_cases hpair : eid = e ∧ uid = v
    · obtain ⟨rfl, rfl⟩ := hpair
      have hzero : db.attempts.countP (isActiveFor eid uid) = 0 := by
        rw [List.countP_eq_zero]
        rw [List.find?_eq_none] at hnone
        exact hnone
      rw [hzero]
      simp [List.countP_cons, isActiveFor_new]
    · have hone : ([startAttemptRec db exam eid uid now].countP (isActiveFor e v)) = 0 := by
        simp only [List.countP_cons, List.countP_nil, isActiveFor_new]
        rcases not_and_or.mp hpair with hne | hne <;> simp [hne]
      rw [hone]
      simpa using hinv e v

/-- C8: under sequential calls the store keeps at most one IN_PROGRESS
attempt per (user, exam) pair: a StartAttempt finding an IN_PROGRESS
attempt returns that attempt's id and previously synced answers with the
store unchanged (no new row); two consecutive Starts return the same
attempt id; and every store operation preserves the at-most-one-active
invariant. -/
theorem C8_at_most_one_active :
    (∀ (db : DB) (eid uid now : ℕ) (shf : List QuestionPublic → List QuestionPublic)
        (exam : Exam) (ex : Attempt),
      db.exams.find? (fun e => e.id == eid) = some exam →
      (exam.status = ExamStatus.published ∨ exam.status = ExamStatus.active) →
      db.attempts.find? (isActiveFor eid uid) = some ex →
      startExam db eid uid now shf = .ok (resumeResult db exam ex now, db) ∧
        (resumeResult db exam ex now).attempt_id = ex.id ∧
        (resumeResult db exam ex now).saved_answers = ex.answers) ∧
    (∀ (db db1 db2 : DB) (eid uid now now2 : ℕ)
        (shf shf2 : List QuestionPublic → List QuestionPublic) (r1 r2 : StartResult),
      startExam db eid uid now shf = .ok (r1, db1) →
      startExam db1 eid uid now2 shf2 = .ok (r2, db2) →
      r2.attempt_id = r1.attempt_id) ∧
    (∀ (db : DB) (data : ExamCreate) (now : ℕ),
      atMostOneActive db → atMostOneActive (createExam db data now).2) ∧
    (∀ (db db' : DB) (eid : ℕ) (u : ExamUpdate) (now : ℕ) (e' : Exam),
      atMostOneActive db → updateExam db eid u now = .ok (e', db') →
      atMostOneActive db') ∧
    (∀ (db db' : DB) (eid uid now : ℕ) (shf : List QuestionPublic → List QuestionPublic)
        (r : StartResult),
      atMostOneActive db → startExam db eid uid now shf = .ok (r, db') →
      atMostOneActive db') ∧
    (∀ (db db' : DB) (aid uid : ℕ) (ans : List AnswerSubmit) (now n : ℕ),
      atMostOneActive db → syncAnswers db aid uid ans now = .ok (n, db') →
      atMostOneActive db') ∧
    (∀ (db db' : DB) (aid uid : ℕ) (sub : List AnswerSubmit) (now : ℕ) (r : SubmitResult),
      atMostOneActive db → submitExam db aid uid sub now = .ok (r, db') →
      atMostOneActive db') := by
  refine ⟨?_, ?_, ?_, ?_, ?_, ?_, ?_⟩
  · intro db eid uid now shf exam ex hfind havail hex
    have hna : ¬(exam.status ≠ ExamStatus.published ∧ exam.status ≠ ExamStatus.active) := by
      rcases havail with h | h <;> simp [h]
    exact ⟨startExam_resume_eq hfind hna hex, rfl, rfl⟩
  · intro db db1 db2 eid uid now now2 shf shf2 r1 r2 h1 h2
    obtain ⟨exam, hfind, hav, hcase1⟩ := startExam_inversion h1
    rcases hcase1 with ⟨ex, hex, rfl, rfl⟩ | ⟨hnone, rfl, rfl⟩
    · obtain ⟨exam2, hfind2, hav2, hcase2⟩ := startExam_inversion h2
      rcases hcase2 with ⟨ex2, hex2, rfl, -⟩ | ⟨hnone2, -, -⟩
      · rw [hex] at hex2
        injection hex2 with hh
        rw [hh]
        rfl
      · rw [hnone2] at hex
        cases hex
    · obtain ⟨exam2, hfind2, hav2, hcase2⟩ := startExam_inversion h2
      have hfindnew : (startDB db exam eid uid now).attempts.find? (isActiveFor eid uid) =
          some (startAttemptRec db exam eid uid now) := by
        show (db.attempts ++ [startAttemptRec db exam eid uid now]).find?
          (isActiveFor eid uid) = _
        rw [List.find?_append, hnone]
        simp [isActiveFor_new]
      rcases hcase2 with ⟨ex2, hex2, rfl, -⟩ | ⟨hnone2, -, -⟩
      · rw [hfindnew] at hex2
        injection hex2 with hh
        rw [← hh]
        rfl
      · rw [hfindnew] at hnone2
        cases hnone2
  · exact fun db data now hinv => create_preserves db data now hinv
  · exact fun db db' eid u now e' hinv h => update_preserves hinv h
  · exact fun db db' eid uid now shf r hinv h => start_preserves hinv h
  · exact fun db db' aid uid ans now n hinv h => sync_preserves hinv h
  · exact fun db db' aid uid sub now r hinv h => submit_preserves hinv h

/-- C8 witness: resume, idempotent double start, and invariant
preservation at the end-to-end fixture. -/
theorem C8_at_most_one_active_witness :
    (startExam fxDb 10 30 5 (fun qs => qs) =
        .ok (resumeResult fxDb fxExam fxAttempt 5, fxDb) ∧
      (resumeResult fxDb fxExam fxAttempt 5).attempt_id = fxAttempt.id ∧
      (resumeResult fxDb fxExam fxAttempt 5).saved_answers = fxAttempt.answers) ∧
    (resumeResult fxDb fxExam fxAttempt 7).attempt_id =
      (resumeResult fxDb fxExam fxAttempt 5).attempt_id ∧
    atMostOneActive fxDb :=
  ⟨C8_at_most_one_active.1 fxDb 10 30 5 (fun qs => qs) fxExam fxAttempt rfl (Or.inl rfl) rfl,
   C8_at_most_one_active.2.1 fxDb fxDb fxDb 10 30 5 7 (fun qs => qs) (fun qs => qs)
     (resumeResult fxDb fxExam fxAttempt 5) (resumeResult fxDb fxExam fxAttempt 7) rfl rfl,
   C8_at_most_one_active.2.2.2.2.1 fxDb fxDb 10 30 5 (fun qs => qs)
     (resumeResult fxDb fxExam fxAttempt 5)
     (fun _ _ => List.countP_le_length _) rfl⟩

/-! ## Immutability after leaving IN_PROGRESS (claim C10) -/

/-- An evaluated attempt of user 30, for the immutability runs. -/
def c10Attempt : Attempt :=
  { id := 23, exam_id := 10, exam_version := 1, user_id := 30
    status := .evaluated, started_at := 0 }

/-- Store whose only attempt is already evaluated. -/
def c10Db : DB :=
  { questions := [fxQ1, fxQ2], exams := [fxExam], attempts := [c10Attempt]
    users := [fxUser], nextId := 70 }

/-- C10: SyncAnswers and SubmitAttempt on an attempt that is no longer
IN_PROGRESS fail with AlreadySubmitted, and an attempt whose status has
left IN_PROGRESS is never mutated again: every store operation keeps the
record in the store unchanged (for sync/submit under the store invariant
that attempt ids are unique).  Failing calls return no modified store at
all, mirroring that all writes in the source happen after validation. -/
theorem C10_already_submitted_immutable :
    (∀ (db : DB) (aid uid : ℕ) (ans : List AnswerSubmit) (now : ℕ) (att : Attempt),
      db.attempts.find? (fun a => a.id == aid) = some att →
      att.user_id = uid → att.status ≠ AttemptStatus.inProgress →
      syncAnswers db aid uid ans now = .error .alreadySubmitted) ∧
    (∀ (db : DB) (aid uid : ℕ) (sub : List AnswerSubmit) (now : ℕ) (att : Attempt),
      db.attempts.find? (fun a => a.id == aid) = some att →
      att.user_id = uid → att.status ≠ AttemptStatus.inProgress →
      submitExam db aid uid sub now = .error .alreadySubmitted) ∧
    (∀ (db : DB) (a : Attempt), a ∈ db.attempts → a.status ≠ AttemptStatus.inProgress →
      (∀ (data : ExamCreate) (now : ℕ), a ∈ (createExam db data now).2.attempts) ∧
      (∀ (eid : ℕ) (u : ExamUpdate) (now : ℕ) (e' : Exam) (db' : DB),
        updateExam db eid u now = .ok (e', db') → a ∈ db'.attempts) ∧
      (∀ (eid uid now : ℕ) (shf : List QuestionPublic → List QuestionPublic)
          (r : StartResult) (db' : DB),
        startExam db eid uid now shf = .ok (r, db') → a ∈ db'.attempts) ∧
      ((db.attempts.map Attempt.id).Nodup →
        (∀ (aid uid : ℕ) (ans : List AnswerSubmit) (now n : ℕ) (db' : DB),
          syncAnswers db aid uid ans now = .ok (n, db') → a ∈ db'.attempts) ∧
        (∀ (aid uid : ℕ) (sub : List AnswerSubmit) (now : ℕ) (r : SubmitResult) (db' : DB),
          submitExam db aid uid sub now = .ok (r, db') → a ∈ db'.attempts))) := by
  refine ⟨?_, ?_, ?_⟩
  · intro db aid uid ans now att hfind huser hstatus
    exact syncAnswers_already_eq ans now hfind huser hstatus
  · intro db aid uid sub now att hfind huser hstatus
    exact submitExam_already_eq sub now hfind huser hstatus
  · intro db a ha hst
    refine ⟨fun data now => ha, ?_, ?_, ?_⟩
    · intro eid u now e' db' h
      rw [updateExam_attempts h]
      exact ha
    · intro eid uid now shf r db' h
      obtain ⟨exam, -, -, hc⟩ := startExam_inversion h
      rcases hc with ⟨ex, -, -, rfl⟩ | ⟨-, -, rfl⟩
      · exact ha
      · exact List.mem_append_left _ ha
    · intro hnd
      constructor
      · intro aid uid ans now n db' h
        obtain ⟨att, hfind, -, hstatt, rfl⟩ := syncAnswers_inversion h
        have hattmem : att ∈ db.attempts := List.mem_of_find?_eq_some hfind
        have hattid : att.id = aid := by
          have := List.find?_some hfind
          simpa using this
        by_cases hid : a.id = aid
        · exact absurd
            (by rw [List.inj_on_of_nodup_map hnd ha hattmem (by rw [hid, hattid])]
                exact hstatt) hst
        · have hbeq : (a.id == aid) = false := by simpa using hid
          have hmem := List.mem_map_of_mem
            (fun x => if x.id == aid then { x with answers := ans, last_sync := some now }
              else x) ha
          simpa only [hbeq, Bool.false_eq_true, if_false] using hmem
      · intro aid uid sub now r db' h
        obtain ⟨att, exam, hfind, -, hstatt, -, -, rfl⟩ := submitExam_inversion h
        have hattmem : att ∈ db.attempts := List.mem_of_find?_eq_some hfind
        have hattid : att.id = aid := by
          have := List.find?_some hfind
          simpa using this
        by_cases hid : a.id = aid
        · exact absurd
            (by rw [List.inj_on_of_nodup_map hnd ha hattmem (by rw [hid, hattid])]
                exact hstatt) hst
        · have hbeq : (a.id == aid) = false := by simpa using hid
          have hmem := List.mem_map_of_mem
            (fun x => if x.id == aid then evaluateAttempt db exam att sub now else x) ha
          simpa only [hbeq, Bool.false_eq_true, if_false] using hmem

/-- C10 witness: the evaluated fixture attempt rejects sync and submit
with AlreadySubmitted and survives a fresh start untouched. -/
theorem C10_already_submitted_immutable_witness :
    syncAnswers c10Db 23 30 [] 9 = .error .alreadySubmitted ∧
    submitExam c10Db 23 30 [] 9 = .error .alreadySubmitted ∧
    c10Attempt ∈ (startDB c10Db fxExam 10 30 11).attempts :=
  ⟨C10_already_submitted_immutable.1 c10Db 23 30 [] 9 c10Attempt rfl rfl (by decide),
   C10_already_submitted_immutable.2.1 c10Db 23 30 [] 9 c10Attempt rfl rfl (by decide),
   (C10_already_submitted_immutable.2.2 c10Db c10Attempt (by decide) (by decide)).2.2.1
     10 30 11 (fun qs => qs) (newStartResult c10Db fxExam 11 (fun qs => qs))
     (startDB c10Db fxExam 10 30 11) rfl⟩

end HOS
